import Mathlib

/-!
Shallow embedding of the audible-converter program (src/main.js, which bundles
two revisions of the script separated by a marker, and src/unnamed/part_000,
a third revision) together with proofs about the frozen claims C1 to C10.

Conventions of the embedding:
- JavaScript strings are Lean `String` or `List Char`; byte arrays are
  `List Nat` with values below 256 where relevant.
- Promise resolution and rejection are modelled with `Except`:
  `.ok` is a fulfilled promise, `.error` a rejected one.
- JavaScript truthiness of a string is `s ≠ ""`; an absent (`false` or
  `undefined`) option value is `Option.none`.
- Error messages carried by thrown `Error` objects are modelled as structured
  error constructors holding the data interpolated into the message.
-/

set_option maxRecDepth 100000

/-- Decidable equality for `Except`, needed to evaluate the embedded
fallible functions on concrete inputs. -/
instance {ε α : Type} [DecidableEq ε] [DecidableEq α] : DecidableEq (Except ε α) := fun a b =>
  match a, b with
  | .ok x, .ok y =>
    if h : x = y then .isTrue (by rw [h]) else .isFalse (by intro hc; cases hc; exact h rfl)
  | .error x, .error y =>
    if h : x = y then .isTrue (by rw [h]) else .isFalse (by intro hc; cases hc; exact h rfl)
  | .ok _, .error _ => .isFalse (by intro hc; cases hc)
  | .error _, .ok _ => .isFalse (by intro hc; cases hc)

/-! ## Hex rendering of registry byte arrays (src/main.js lines 49-62) -/

/-- Embedding of `toHex`: render a byte as two uppercase hex characters.
The JavaScript is `('0' + Number(d).toString(16)).slice(-2).toUpperCase()`:
prepend a zero, keep the last two characters, uppercase them.
`Nat.toDigits 16` matches `Number.toString(16)` on nonnegative integers
(lowercase digits, and the digit 0 for input 0). -/
def toHex (d : Nat) : String :=
  let s := '0' :: Nat.toDigits 16 d
  ⟨(s.drop (s.length - 2)).map Char.toUpper⟩

/-- Embedding of `bytesToHex`: map `toHex` over the byte array and join. -/
def bytesToHex (byteArray : List Nat) : String :=
  ⟨(byteArray.map (fun n => (toHex n).data)).flatten⟩

/-- Embedding of `extractBytes`: hex of the first four bytes, reversed
(`byteArray.slice(0, 4).reverse()`). -/
def extractBytes (byteArray : List Nat) : String :=
  bytesToHex ((byteArray.take 4).reverse)

/-- A canonical hex decoder, modelled from the spec sentence that the
8 hex characters are decoded back to bytes (the program itself has no
decoder; this is the standard inverse used to state the round trip):
value of one hex character. -/
def hexCharVal (c : Char) : Nat :=
  if c.isDigit then c.toNat - 48
  else if 'a' ≤ c ∧ c ≤ 'f' then c.toNat - 87
  else if 'A' ≤ c ∧ c ≤ 'F' then c.toNat - 55
  else 0

/-- Decode a hex string two characters at a time into bytes (canonical
inverse of `bytesToHex`, used to state the round-trip property). -/
def hexPairsToBytes : List Char → List Nat
  | a :: b :: rest => (16 * hexCharVal a + hexCharVal b) :: hexPairsToBytes rest
  | _ => []

/-- Decode a two-character hex rendering of a single byte; helper used to
state the per-byte round trip in a decidable form. -/
def decodeHexByte (s : List Char) : Option Nat :=
  match s with
  | [a, b] => some (16 * hexCharVal a + hexCharVal b)
  | _ => none

/-! ## Activation-byte resolver (src/main.js lines 64-101 and 434-471) -/

/-- Structured form of the errors thrown by the resolver functions. -/
inductive ResolveError where
  /-- Optional dependency regedit is not installed (registry unavailable). -/
  | regeditMissing : ResolveError
  /-- Could not find any Audible Activation Bytes (table empty after
  discarding sentinel entries). -/
  | noActivationBytes : ResolveError
  /-- `Device Nr. <index> not found!` naming the requested index. -/
  | deviceNotFound (index : Nat) : ResolveError
deriving DecidableEq

/-- State read by the resolver: the platform flag, the two command line
inputs (`program.activationBytes`, `program.device`) and the registry
contents (`none` when the regedit dependency is unavailable; otherwise the
raw byte-array values under the Audible devices key, in enumeration order). -/
structure ResolverState where
  win32 : Bool
  activationBytes : Option String
  device : Option Nat
  registry : Option (List (List Nat))
deriving DecidableEq

/-- JavaScript truthiness of the optional activation-bytes value: the
commander default is `false` (falsy, modelled `none`); a supplied string is
truthy when nonempty. -/
def optTruthy : Option String → Bool
  | none => false
  | some s => decide (s ≠ "")

/-- Embedding of `fetchActivationBytesFromDevices`: reject when regedit is
unavailable; otherwise render each registry value with `extractBytes`,
discard entries whose uppercasing equals the sentinel `FFFFFFFF`, and
return the remainder if nonempty, else reject. -/
def fetchActivationBytesFromDevices (registry : Option (List (List Nat))) :
    Except ResolveError (List String) :=
  match registry with
  | none => .error .regeditMissing
  | some values =>
    let entries := values.map extractBytes
    let entries := entries.filter (fun n => decide (⟨n.data.map Char.toUpper⟩ ≠ ("FFFFFFFF" : String)))
    if entries.length > 0 then .ok entries else .error .noActivationBytes

/-- Embedding of the `.then((devices) => ...)` continuation shared verbatim
by both revisions of `fetchActivationBytes`: start from the first device
(or the empty string), let a truthy explicit secret override it, let a
present truthy requested device entry override that, and fail with
`deviceNotFound` when a device was requested but its entry is absent or
falsy. -/
def fetchActivationBytesBody (st : ResolverState) : Except ResolveError (Option String) :=
  match fetchActivationBytesFromDevices st.registry with
  | .error e => .error e
  | .ok devices =>
    let bytes0 := devices.headD ""
    let bytes1 := match st.activationBytes with
      | some a => if a ≠ "" then a else bytes0
      | none => bytes0
    let bytes2 := match st.device with
      | some i =>
        match devices.get? i with
        | some d => if d ≠ "" then d else bytes1
        | none => bytes1
      | none => bytes1
    match st.device with
    | some i =>
      match devices.get? i with
      | some d => if d ≠ "" then .ok (some bytes2) else .error (.deviceNotFound i)
      | none => .error (.deviceNotFound i)
    | none => .ok (some bytes2)

/-- Embedding of the current `fetchActivationBytes` (src/main.js lines
452-471, identical in src/unnamed/part_000 lines 88-107): resolve
immediately with the explicit value when not on win32 or when the explicit
value is truthy; otherwise enumerate the device table. -/
def fetchActivationBytes (st : ResolverState) : Except ResolveError (Option String) :=
  if !st.win32 || optTruthy st.activationBytes then .ok st.activationBytes
  else fetchActivationBytesBody st

/-- Embedding of the earlier revision of `fetchActivationBytes` (src/main.js
lines 82-101): the guard tests only the platform, so on win32 the device
table is always enumerated even when an explicit secret was supplied. -/
def fetchActivationBytesV1 (st : ResolverState) : Except ResolveError (Option String) :=
  if !st.win32 then .ok st.activationBytes
  else fetchActivationBytesBody st

/-! ## Checksum extractor (src/main.js lines 126-137) -/

/-- Embedding of `fetchChecksum`. The input models the file: `none` when it
cannot be opened, otherwise its byte contents. The source allocates a
zero-filled 20-byte buffer, reads up to 20 bytes at absolute position 653
into its front (a read past or near the end of the file is not an error in
Node: it simply fills fewer bytes), logs and swallows any open or read
error, and always resolves with the buffer. The function is total: no
error escapes. -/
def fetchChecksum (file : Option (List Nat)) : List Nat :=
  match file with
  | none => List.replicate 20 0
  | some bytes =>
    let data := (bytes.drop 653).take 20
    data ++ List.replicate (20 - data.length) 0

/-! ## Timemark to percent (src/main.js lines 139-142) -/

/-- Split a character list at every colon, matching the JavaScript
`String.prototype.split(":")` (adjacent separators give empty components,
the empty string gives one empty component). -/
def splitOnColon : List Char → List (List Char)
  | [] => [[]]
  | c :: rest =>
    let r := splitOnColon rest
    if c = ':' then [] :: r else (c :: r.headD []) :: r.tail

/-- Numeric coercion of a digit-only component, matching JavaScript
`Number` on such strings (`Number("") = 0`, `Number("02") = 2`).
Components containing other characters coerce to NaN in JavaScript and are
outside the modelled domain, yielding `none`. -/
def jsNumberNat : List Char → Option Nat
  | cs =>
    if cs.all (fun c => c.isDigit) then
      some (cs.foldl (fun a c => a * 10 + (c.toNat - 48)) 0)
    else none

/-- Embedding of `currentTimemarkToPercent`: split the timemark at colons,
coerce the first three components to numbers, and compute
`floor((h * 3600 + m * 60 + floor(s)) * 100 / total)`. Components past the
third are ignored by the source (it only reads indexes 0, 1, 2). A missing
or non-numeric component makes the JavaScript result NaN, modelled `none`;
the claims only concern a positive `total`, where Nat floor division
coincides with `Math.floor` of the float quotient. -/
def currentTimemarkToPercent (timemark : String) (total : Nat) : Option Nat :=
  match (splitOnColon timemark.data).map jsNumberNat with
  | some h :: some m :: some s :: _ => some ((h * 3600 + m * 60 + s) * 100 / total)
  | _ => none

/-! ## License parsing (src/main.js lines 537-552, src/unnamed/part_000 lines 173-188) -/

/-- Character class of the regex fragment `[\w-]`. -/
def isWordOrDash (c : Char) : Bool :=
  c.isAlphanum || c = '_' || c = '-'

/-- Character class of the regex fragment `[\w\s-]` used by the part_000
title pattern. -/
def isWordSpaceOrDash (c : Char) : Bool :=
  isWordOrDash c || c.isWhitespace

/-- Greedy capture of `(cls+[^&])` at the current position, with the
backtracking the JavaScript engine performs: take the maximal run of class
characters; if a following character exists and is not an ampersand it is
consumed by `[^&]`, extending the capture by one; otherwise the last run
character backs off to satisfy `[^&]` (class characters are never the
ampersand), which needs a run of at least two. An empty run fails. -/
def captureClassNonAmp (cls : Char → Bool) (rest : List Char) : Option (List Char) :=
  let run := rest.takeWhile cls
  if run.length = 0 then none
  else
    match rest.drop run.length with
    | c :: _ => if c = '&' then (if 2 ≤ run.length then some run else none) else some (run ++ [c])
    | [] => if 2 ≤ run.length then some run else none

/-- Greedy capture of `([^&]+)` at the current position: the maximal
nonempty run of non-ampersand characters. -/
def captureNonAmp (rest : List Char) : Option (List Char) :=
  let run := rest.takeWhile (fun c => decide (c ≠ '&'))
  if run.length = 0 then none else some run

/-- Leftmost-match scan of the content for `key` (the literal including the
equals sign) followed by a successful capture; on a failed capture the scan
resumes one character further, as the regex engine does. -/
def scanField (key : List Char) (capture : List Char → Option (List Char)) :
    List Char → Option (List Char)
  | [] => none
  | c :: rest =>
    if (c :: rest).take key.length = key then
      match capture ((c :: rest).drop key.length) with
      | some v => some v
      | none => scanField key capture rest
    else scanField key capture rest

/-- Embedding of the four `content.match(...).pop()` lines of
`extractDownloadURL` (src/main.js lines 542-545): the patterns are
`cust_id=([\w-]+[^&])`, `product_id=([\w-]+[^&])`, `codec=([\w-]+[^&])`
and `title=([^&]+)`. A failed match makes `.pop()` throw, rejecting the
promise, modelled `none`. -/
def extractLicenseFields (content : List Char) :
    Option (List Char × List Char × List Char × List Char) :=
  match scanField "cust_id=".data (captureClassNonAmp isWordOrDash) content,
        scanField "product_id=".data (captureClassNonAmp isWordOrDash) content,
        scanField "codec=".data (captureClassNonAmp isWordOrDash) content,
        scanField "title=".data captureNonAmp content with
  | some cu, some pr, some co, some ti => some (cu, pr, co, ti)
  | _, _, _, _ => none

/-- Embedding of `extractDownloadURL` (src/main.js lines 537-552): parse
the four fields out of the license-file content and build the download URL
from the fixed template; resolve with the URL and the title. -/
def extractDownloadURL (content : List Char) : Option (List Char × List Char) :=
  match extractLicenseFields content with
  | some (cu, pr, co, ti) =>
    some ("https://cds.audible.de/download?product_id=".data ++ pr ++
          "&cust_id=".data ++ cu ++ "&codec=".data ++ co, ti)
  | none => none

/-- Variant title capture of the part_000 revision (line 181), whose
pattern is `title=([\w\s-]+[^&])`. -/
def titleCapturePart0 (content : List Char) : Option (List Char) :=
  scanField "title=".data (captureClassNonAmp isWordSpaceOrDash) content

/-- License-file content of the claimed example. -/
def demoLicense : List Char :=
  "cust_id=AAA&product_id=BBB&codec=C1&title=My+Book".data

/-! ## Cracker output parsing (src/main.js lines 637-656) -/

/-- Character class of the regex fragment `[a-fA-F0-9]`. -/
def isHexDigitChar (c : Char) : Bool :=
  c.isDigit || ('a' ≤ c && c ≤ 'f') || ('A' ≤ c && c ≤ 'F')

/-- Anchored attempt of the pattern `hex:([a-fA-F0-9]{8})` at the head of
the list: the literal `hex:` followed by exactly eight hex characters,
returning the captured eight characters. -/
def hexAt (s : List Char) : Option (List Char) :=
  if s.take 4 = ['h', 'e', 'x', ':'] then
    let d := (s.drop 4).take 8
    if d.length = 8 ∧ d.all isHexDigitChar then some d else none
  else none

/-- Leftmost match of `hex:([a-fA-F0-9]{8})` anywhere in the text, the
search `String.prototype.match` performs. -/
def findHexMatch : List Char → Option (List Char)
  | [] => none
  | c :: rest =>
    match hexAt (c :: rest) with
    | some d => some d
    | none => findHexMatch rest

/-- Structured form of the error thrown by `lookupChecksum`. -/
inductive CrackError where
  /-- `Activation Bytes where not found!` (no match in the output). -/
  | activationBytesNotFound : CrackError
deriving DecidableEq

/-- Embedding of the parsing half of `lookupChecksum` (src/main.js lines
650-655): given the text the cracker subprocess emitted on standard
output, search it for `hex:<8 hex digits>`; report the captured digits, or
throw when there is no match. -/
def lookupChecksum (output : List Char) : Except CrackError (List Char) :=
  match findHexMatch output with
  | some d => .ok d
  | none => .error .activationBytesNotFound

/-- Specification-level statement that the output text contains a match of
`hex:<8 hex digits>` somewhere. -/
def hasHexPattern (s : List Char) : Prop :=
  ∃ pre d post, s = pre ++ ['h', 'e', 'x', ':'] ++ d ++ post ∧
    d.length = 8 ∧ d.all isHexDigitChar = true

/-! ## Batch orchestrator (src/main.js lines 290-308) -/

/-- Embedding of the `Promise.reduce` loop of `main`, parameterized by the
outcome of `converter` on each file (`true` = fulfilled). Bluebird reduce
awaits the files strictly in order and rejects the whole reduction at the
first rejection, so the remaining files are never attempted. The result
pairs the list of files on which `converter` was invoked with `some total`
when the reduction fulfilled (feeding the final report) or `none` when it
rejected (the report is skipped and the error logged). -/
def runBatch (convert : String → Bool) : List String → Nat → List String × Option Nat
  | [], total => ([], some total)
  | f :: rest, total =>
    if convert f then
      let r := runBatch convert rest (total + 1)
      (f :: r.1, r.2)
    else ([f], none)

/-- Embedding of `main` restricted to its batch bookkeeping: reduce over
the globbed files starting from zero. -/
def mainRun (convert : String → Bool) (files : List String) : List String × Option Nat :=
  runBatch convert files 0

/-- Embedding of the final report line of `main` (line 302):
`Finished converting <total or one> Audiobook<s?>!` with the numeric total
and the plural s only when the total exceeds one. -/
def finalMessage (total : Nat) : String :=
  "Finished converting " ++ (if total > 1 then toString total else "one") ++
    " Audiobook" ++ (if total > 1 then "s" else "") ++ "!"

/-! ## Claims C2, C3, C5, C10 -/

/-- C2 (amended): for every timemark of the form H:MM:SS (three colon
separated numeric components) and positive total duration,
`currentTimemarkToPercent` returns `floor((H * 3600 + MM * 60 + SS) * 100
/ total)`; in particular, for timemark "1:02:03" and total 3800 it
returns 97 (the claimed value 98 is wrong: floor(372300 / 3800) = 97). -/
theorem c2_timemark_percent (tm : String) (total H M S : Nat) (hs ms ss : List Char)
    (hsplit : splitOnColon tm.data = [hs, ms, ss])
    (hH : jsNumberNat hs = some H) (hM : jsNumberNat ms = some M)
    (hS : jsNumberNat ss = some S) (_htotal : 0 < total) :
    currentTimemarkToPercent tm total = some ((H * 3600 + M * 60 + S) * 100 / total) ∧
    currentTimemarkToPercent "1:02:03" 3800 = some 97 := by
  constructor
  · unfold currentTimemarkToPercent
    rw [hsplit]
    simp [hH, hM, hS]
  · decide

/-- C2 witness: the general theorem evaluated at "1:02:03" and 3800. -/
theorem c2_timemark_percent_witness :
    splitOnColon ("1:02:03" : String).data = [['1'], ['0', '2'], ['0', '3']] ∧
    (0 : Nat) < 3800 ∧
    currentTimemarkToPercent "1:02:03" 3800 = some ((1 * 3600 + 2 * 60 + 3) * 100 / 3800) :=
  ⟨by decide, by decide,
   (c2_timemark_percent "1:02:03" 3800 1 2 3 ['1'] ['0', '2'] ['0', '3']
     (by decide) (by decide) (by decide) (by decide) (by decide)).1⟩

/-- C2 counterexample: on "1:02:03" with total 3800 the function returns
97, not the claimed 98. -/
theorem c2_counterexample :
    currentTimemarkToPercent "1:02:03" 3800 = some 97 ∧
    currentTimemarkToPercent "1:02:03" 3800 ≠ some 98 := by decide

/-- C3 (amended): on the license content
`cust_id=AAA&product_id=BBB&codec=C1&title=My+Book` the three identifier
fields parse with boundaries at the ampersand as claimed (AAA, BBB, C1),
but the title captures the raw text `My+Book`: no plus-to-space decoding
is performed, so the title is not `My Book`. The download URL embeds the
three identifiers; the part_000 revision of the title pattern even stops
at the plus, capturing `My+`. -/
theorem c3_license_fields :
    extractLicenseFields demoLicense =
      some ("AAA".data, "BBB".data, "C1".data, "My+Book".data) ∧
    extractDownloadURL demoLicense =
      some ("https://cds.audible.de/download?product_id=BBB&cust_id=AAA&codec=C1".data,
        "My+Book".data) ∧
    titleCapturePart0 demoLicense = some "My+".data := by decide

/-- C3 counterexample: the title field of the claimed example parses to
`My+Book`, not to `My Book`. -/
theorem c3_counterexample :
    (extractLicenseFields demoLicense).map (fun q => q.2.2.2) = some "My+Book".data ∧
    (extractLicenseFields demoLicense).map (fun q => q.2.2.2) ≠ some "My Book".data := by decide

/-- C5 (amended): `fetchChecksum` never raises (it is total and always
yields exactly 20 bytes); for a file that cannot be opened, or one whose
length is at most 653 (nothing readable at offset 653), the result is the
all-zero 20-byte buffer. Files of length 654 to 672 yield the readable
tail bytes padded with zeros, not the all-zero buffer. -/
theorem c5_checksum_fallback (file : Option (List Nat)) :
    (fetchChecksum file).length = 20 ∧
    (file = none → fetchChecksum file = List.replicate 20 0) ∧
    (∀ bytes, file = some bytes → bytes.length ≤ 653 →
      fetchChecksum file = List.replicate 20 0) := by
  refine ⟨?_, ?_, ?_⟩
  · cases file with
    | none => decide
    | some bytes =>
      simp only [fetchChecksum, List.length_append, List.length_replicate, List.length_take,
        List.length_drop]
      omega
  · intro h
    subst h
    decide
  · intro bytes hfile hlen
    subst hfile
    have hdrop : bytes.drop 653 = [] := by
      apply List.drop_eq_nil_of_le hlen
    simp [fetchChecksum, hdrop]

/-- C5 witness: the theorem evaluated at an unopenable file and at a
10-byte file. -/
theorem c5_checksum_fallback_witness :
    fetchChecksum none = List.replicate 20 0 ∧
    (List.replicate 10 (5 : Nat)).length ≤ 653 ∧
    fetchChecksum (some (List.replicate 10 5)) = List.replicate 20 0 :=
  ⟨(c5_checksum_fallback none).2.1 rfl, by decide,
   (c5_checksum_fallback (some (List.replicate 10 5))).2.2 _ rfl (by decide)⟩

/-- C5 counterexample: a 654-byte file whose byte at offset 653 is 7 is
shorter than 673 bytes, yet the result is not the all-zero buffer. -/
theorem c5_counterexample :
    (List.replicate 653 (0 : Nat) ++ [7]).length = 654 ∧ (654 : Nat) < 673 ∧
    fetchChecksum (some (List.replicate 653 0 ++ [7])) = 7 :: List.replicate 19 0 ∧
    fetchChecksum (some (List.replicate 653 0 ++ [7])) ≠ List.replicate 20 0 := by decide

/-- Equality of strings follows from equality of their character lists. -/
theorem stringDataEq {s t : String} (h : s.data = t.data) : s = t :=
  congrArg String.mk h

/-- Character list of an appended string. -/
theorem stringDataAppend (a b : String) : (a ++ b).data = a.data ++ b.data := by
  cases a
  cases b
  rfl

/-- C10: the final report of `main` renders the count as the word one with
the singular Audiobook whenever the total is at most one (including the
empty batch, whose reduce completes with total zero), and shows the
numeric count with the plural only when the total exceeds one. -/
theorem c10_final_report (total : Nat) :
    (total ≤ 1 → finalMessage total = "Finished converting one Audiobook!") ∧
    (1 < total → finalMessage total = "Finished converting " ++ toString total ++ " Audiobooks!") ∧
    (∀ convert : String → Bool, mainRun convert [] = ([], some 0)) := by
  refine ⟨?_, ?_, fun _ => rfl⟩
  · intro h
    have hnot : ¬ (total > 1) := by omega
    simp only [finalMessage, if_neg hnot]
    decide
  · intro h
    simp only [finalMessage, if_pos h]
    have he : (" Audiobooks!" : String) = " Audiobook" ++ "s" ++ "!" := by decide
    rw [he]
    apply stringDataEq
    simp [stringDataAppend, List.append_assoc]

/-- C10 witness: the theorem evaluated at totals 0 and 2 and at the empty
batch. -/
theorem c10_final_report_witness :
    (0 : Nat) ≤ 1 ∧ finalMessage 0 = "Finished converting one Audiobook!" ∧
    (1 : Nat) < 2 ∧ finalMessage 2 = "Finished converting 2 Audiobooks!" ∧
    mainRun (fun _ => true) [] = ([], some 0) := by
  refine ⟨by decide, (c10_final_report 0).1 (by decide), by decide, ?_,
    (c10_final_report 0).2.2 _⟩
  have h := (c10_final_report 2).2.1 (by decide)
  rw [h]
  decide

/-! ## Claims C4, C7 -/

/-- Resolver state of the C4 scenario: win32, explicit secret 1CEB00DA,
requested device index 0, one registry value whose rendering is
12EFCDAB. -/
def c4State : ResolverState :=
  { win32 := true, activationBytes := some "1CEB00DA", device := some 0,
    registry := some [[171, 205, 239, 18]] }

/-- C4 (amended): in the current `fetchActivationBytes` a truthy explicit
secret is returned unconditionally, before any device enumeration, so it
wins regardless of the device table and of any requested device index. In
the earlier revision (`fetchActivationBytesV1`, src/main.js lines 82-101)
this is not true: a requested device index whose entry is present in the
table overrides the explicit secret (see the counterexample). -/
theorem c4_explicit_wins (st : ResolverState)
    (h : optTruthy st.activationBytes = true) :
    fetchActivationBytes st = .ok st.activationBytes := by
  unfold fetchActivationBytes
  rw [h]
  simp

/-- C4 witness: the theorem evaluated at the C4 scenario state. -/
theorem c4_explicit_wins_witness :
    optTruthy c4State.activationBytes = true ∧
    fetchActivationBytes c4State = .ok (some "1CEB00DA") := by
  refine ⟨by decide, ?_⟩
  rw [c4_explicit_wins c4State (by decide)]
  decide

/-- C4 counterexample: in the revision of src/main.js lines 82-101, with an
explicit (truthy) secret and a non-empty device table, requesting device 0
makes the resolver return the device entry 12EFCDAB instead of the
explicit secret 1CEB00DA. -/
theorem c4_counterexample :
    optTruthy c4State.activationBytes = true ∧
    fetchActivationBytesFromDevices c4State.registry = .ok ["12EFCDAB"] ∧
    fetchActivationBytesV1 c4State = .ok (some "12EFCDAB") ∧
    fetchActivationBytesV1 c4State ≠ .ok c4State.activationBytes := by decide

/-- C7: when a device index was requested, no truthy explicit secret was
given, and the enumerated table has no entry at that index, the resolver
fails with the device-not-found error naming the requested index. -/
theorem c7_device_not_found (st : ResolverState) (i : Nat) (devices : List String)
    (hwin : st.win32 = true)
    (hexp : optTruthy st.activationBytes = false)
    (hdev : st.device = some i)
    (henum : fetchActivationBytesFromDevices st.registry = .ok devices)
    (habsent : devices.get? i = none) :
    fetchActivationBytes st = .error (.deviceNotFound i) := by
  rw [List.get?_eq_getElem?] at habsent
  simp [fetchActivationBytes, fetchActivationBytesBody, hwin, hexp, hdev, henum, habsent]

/-- Resolver state of the C7 scenario: win32, no explicit secret, requested
device index 5, one registry value. -/
def c7State : ResolverState :=
  { win32 := true, activationBytes := none, device := some 5,
    registry := some [[1, 2, 3, 4]] }

/-- C7 witness: the theorem evaluated at the C7 scenario state. -/
theorem c7_device_not_found_witness :
    c7State.win32 = true ∧ optTruthy c7State.activationBytes = false ∧
    c7State.device = some 5 ∧
    fetchActivationBytesFromDevices c7State.registry = .ok ["04030201"] ∧
    (["04030201"] : List String).get? 5 = none ∧
    fetchActivationBytes c7State = .error (.deviceNotFound 5) :=
  ⟨by decide, by decide, by decide, by decide, by decide,
   c7_device_not_found c7State 5 ["04030201"]
     (by decide) (by decide) (by decide) (by decide) (by decide)⟩

/-! ## Claim C6 -/

/-- Every device list returned by the enumerator is free of the sentinel:
the filter discards every entry whose uppercasing is FFFFFFFF, and the
sentinel string uppercases to itself. -/
theorem mem_devices_ne_sentinel {registry : Option (List (List Nat))} {devices : List String}
    (h : fetchActivationBytesFromDevices registry = .ok devices) :
    ∀ x ∈ devices, x ≠ "FFFFFFFF" := by
  intro x hx hxe
  subst hxe
  cases registry with
  | none => exact Except.noConfusion h
  | some values =>
    simp only [fetchActivationBytesFromDevices] at h
    split at h
    · cases h
      rw [List.mem_filter] at hx
      have h2 := of_decide_eq_true hx.2
      exact h2 (by decide)
    · exact Except.noConfusion h

/-- The first device defaulted to the empty string is either the empty
string or a member of the list. -/
theorem headD_empty_or_mem (devices : List String) :
    devices.headD "" = "" ∨ devices.headD "" ∈ devices := by
  cases devices with
  | nil => left; rfl
  | cons a l => right; simp [List.headD]

/-- Every successful value of the resolver body with no truthy explicit
secret is a device entry or the empty string, hence not the sentinel. -/
theorem body_ok_ne_sentinel (st : ResolverState) (b : String)
    (hexp : optTruthy st.activationBytes = false)
    (hok : fetchActivationBytesBody st = .ok (some b)) : b ≠ "FFFFFFFF" := by
  intro hbe
  subst hbe
  unfold fetchActivationBytesBody at hok
  cases hres : fetchActivationBytesFromDevices st.registry with
  | error e =>
    rw [hres] at hok
    exact Except.noConfusion hok
  | ok devices =>
    rw [hres] at hok
    dsimp only at hok
    have hdev := mem_devices_ne_sentinel hres
    cases hd : st.device with
    | none =>
      rw [hd] at hok
      dsimp only at hok
      simp only [Except.ok.injEq, Option.some.injEq] at hok
      cases ha : st.activationBytes with
      | none =>
        rw [ha] at hok
        dsimp only at hok
        rcases headD_empty_or_mem devices with he | hm
        · rw [hok] at he
          exact absurd he (by decide)
        · rw [hok] at hm
          exact hdev _ hm rfl
      | some a =>
        rw [ha] at hexp
        simp only [optTruthy, decide_eq_false_iff_not, not_not] at hexp
        rw [ha] at hok
        dsimp only at hok
        rw [if_neg (by simp [hexp])] at hok
        rcases headD_empty_or_mem devices with he | hm
        · rw [hok] at he
          exact absurd he (by decide)
        · rw [hok] at hm
          exact hdev _ hm rfl
    | some i =>
      rw [hd] at hok
      dsimp only at hok
      cases hg : devices.get? i with
      | none =>
        rw [hg] at hok
        exact Except.noConfusion hok
      | some d =>
        rw [hg] at hok
        dsimp only at hok
        by_cases hde : d = ""
        · rw [if_neg (by simp [hde])] at hok
          exact Except.noConfusion hok
        · simp only [if_pos hde] at hok
          simp only [Except.ok.injEq, Option.some.injEq] at hok
          exact hdev _ (List.get?_mem hg) hok

/-- C6: the device enumerator never includes the all-ones sentinel
FFFFFFFF in its result, and the resolver (absent a truthy explicit
secret, which short-circuits before the table is consulted) never
resolves with the sentinel as the activation secret. -/
theorem c6_sentinel_excluded :
    (∀ (vals : List (List Nat)) (devices : List String),
      fetchActivationBytesFromDevices (some vals) = .ok devices → "FFFFFFFF" ∉ devices) ∧
    (∀ (st : ResolverState) (b : String), optTruthy st.activationBytes = false →
      fetchActivationBytes st = .ok (some b) → b ≠ "FFFFFFFF") := by
  constructor
  · intro vals devices h hmem
    exact mem_devices_ne_sentinel h _ hmem rfl
  · intro st b hexp hok
    unfold fetchActivationBytes at hok
    rw [hexp, Bool.or_false] at hok
    cases hw : st.win32 with
    | false =>
      rw [hw] at hok
      simp at hok
      intro hbe
      rw [hok, hbe] at hexp
      exact absurd hexp (by decide)
    | true =>
      rw [hw] at hok
      simp at hok
      exact body_ok_ne_sentinel st b hexp hok

/-- Resolver state of the C6 scenario: win32, no explicit secret, no
requested device, a sentinel registry entry followed by an ordinary one. -/
def c6State : ResolverState :=
  { win32 := true, activationBytes := none, device := none,
    registry := some [[255, 255, 255, 255], [1, 2, 3, 4]] }

/-- C6 witness: the theorem evaluated on a registry holding the sentinel
entry and one ordinary entry. -/
theorem c6_sentinel_excluded_witness :
    fetchActivationBytesFromDevices (some [[255, 255, 255, 255], [1, 2, 3, 4]]) =
      .ok ["04030201"] ∧
    "FFFFFFFF" ∉ (["04030201"] : List String) ∧
    optTruthy c6State.activationBytes = false ∧
    fetchActivationBytes c6State = .ok (some "04030201") ∧
    "04030201" ≠ "FFFFFFFF" := by
  refine ⟨by decide, ?_, by decide, by decide, ?_⟩
  · exact c6_sentinel_excluded.1 [[255, 255, 255, 255], [1, 2, 3, 4]] ["04030201"] (by decide)
  · exact c6_sentinel_excluded.2 c6State "04030201" (by decide) (by decide)

/-! ## Claim C1 -/

/-- When every file of the list converts successfully, the reduce visits
all of them and accumulates one success per file. -/
theorem runBatch_all_ok (convert : String → Bool) (l : List String) :
    ∀ t : Nat, (∀ g ∈ l, convert g = true) →
      runBatch convert l t = (l, some (t + l.length)) := by
  induction l with
  | nil => intro t _; simp [runBatch]
  | cons a l ih =>
    intro t h
    have ha := h a (List.mem_cons_self a l)
    simp only [runBatch, ha, if_true]
    rw [ih (t + 1) (fun g hg => h g (List.mem_cons_of_mem _ hg))]
    simp only [Prod.mk.injEq, Option.some.injEq, List.length_cons, true_and]
    omega

/-- When the files up to some position succeed and the file at that
position fails, the reduce rejects there: exactly the prefix through the
failing file is attempted and the reduction carries no total. -/
theorem runBatch_abort (convert : String → Bool) (l1 : List String) :
    ∀ (l2 : List String) (f : String) (t : Nat),
      (∀ g ∈ l1, convert g = true) → convert f = false →
      runBatch convert (l1 ++ f :: l2) t = (l1 ++ [f], none) := by
  induction l1 with
  | nil => intro l2 f t _ hfail; simp [runBatch, hfail]
  | cons a l ih =>
    intro l2 f t hok hfail
    have ha := hok a (List.mem_cons_self a l)
    simp only [List.cons_append, runBatch, ha, if_true]
    have hi := ih l2 f (t + 1) (fun g hg => hok g (List.mem_cons_of_mem _ hg)) hfail
    simp [hi]

/-- C1 (amended): the orchestrator aborts the batch at the first failing
file. When every file converts, the reduce completes and the reported
final count equals the number of files; when the file after a prefix of
successes fails, exactly that prefix plus the failing file is attempted —
the later files are never attempted — and no final count is produced
(the final report is skipped and the error logged). -/
theorem c1_batch (convert : String → Bool) (l1 l2 : List String) (f : String)
    (hok : ∀ g ∈ l1, convert g = true) (hfail : convert f = false) :
    mainRun convert l1 = (l1, some l1.length) ∧
    mainRun convert (l1 ++ f :: l2) = (l1 ++ [f], none) := by
  constructor
  · have h := runBatch_all_ok convert l1 0 hok
    simpa [mainRun] using h
  · exact runBatch_abort convert l1 l2 f 0 hok hfail

/-- C1 witness: the theorem evaluated on a concrete batch where the file b
fails; a and later files succeed, c is never attempted. -/
theorem c1_batch_witness :
    (∀ g ∈ (["a"] : List String), (fun s => s != "b") g = true) ∧
    ((fun s => s != "b") : String → Bool) "b" = false ∧
    mainRun (fun s => s != "b") ["a"] = (["a"], some 1) ∧
    mainRun (fun s => s != "b") ["a", "b", "c"] = (["a", "b"], none) := by
  have h := c1_batch (fun s => s != "b") ["a"] ["c"] "b" (by decide) (by decide)
  exact ⟨by decide, by decide, h.1, h.2⟩

/-- C1 counterexample: with a batch of two files where the first fails and
the second would succeed, the orchestrator never attempts the second file
and reports no final count, refuting the claim that a failure on file N
does not prevent attempting file N+1. -/
theorem c1_counterexample :
    ((fun s => s == "b") : String → Bool) "a" = false ∧
    mainRun (fun s => s == "b") ["a", "b"] = (["a"], none) ∧
    "b" ∉ (mainRun (fun s => s == "b") ["a", "b"]).1 := by decide

/-! ## Claim C8 -/

/-- A successful anchored match yields the decomposition of the text into
the literal, the eight captured hex characters, and the remainder. -/
theorem hexAt_sound {s d : List Char} (h : hexAt s = some d) :
    s = ['h', 'e', 'x', ':'] ++ d ++ s.drop 12 ∧ d.length = 8 ∧
      d.all isHexDigitChar = true := by
  unfold hexAt at h
  by_cases ht : s.take 4 = ['h', 'e', 'x', ':']
  · rw [if_pos ht] at h
    dsimp only at h
    split at h
    · next hcond =>
      injection h with hd
      subst hd
      refine ⟨?_, hcond.1, hcond.2⟩
      have hdd : (s.drop 4).drop 8 = s.drop 12 := by
        rw [List.drop_drop]
      conv_lhs => rw [← List.take_append_drop 4 s]
      rw [ht, ← hdd]
      conv_lhs => rw [← List.take_append_drop 8 (s.drop 4)]
      simp [List.append_assoc]
    · exact Option.noConfusion h
  · rw [if_neg ht] at h
    exact Option.noConfusion h

/-- Every successful match of the scan exhibits the pattern somewhere in
the text. -/
theorem findHexMatch_sound {s d : List Char} (h : findHexMatch s = some d) :
    hasHexPattern s := by
  induction s with
  | nil => exact Option.noConfusion h
  | cons c rest ih =>
    unfold findHexMatch at h
    cases hh : hexAt (c :: rest) with
    | some d0 =>
      obtain ⟨hs, hlen, hhex⟩ := hexAt_sound hh
      exact ⟨[], d0, (c :: rest).drop 12, by simpa using hs, hlen, hhex⟩
    | none =>
      rw [hh] at h
      dsimp only at h
      obtain ⟨pre, dd, post, hs, hlen, hhex⟩ := ih h
      exact ⟨c :: pre, dd, post, by simp [hs], hlen, hhex⟩

/-- The scan succeeds on every text that contains the pattern. -/
theorem findHexMatch_app (pre d post : List Char) (hlen : d.length = 8)
    (hhex : d.all isHexDigitChar = true) :
    (findHexMatch (pre ++ ['h', 'e', 'x', ':'] ++ d ++ post)).isSome = true := by
  induction pre with
  | nil =>
    have hanch : hexAt ('h' :: 'e' :: 'x' :: ':' :: (d ++ post)) = some d := by
      unfold hexAt
      rw [if_pos (show List.take 4 ('h' :: 'e' :: 'x' :: ':' :: (d ++ post)) =
        ['h', 'e', 'x', ':'] from rfl)]
      dsimp only
      have hdrop : ('h' :: 'e' :: 'x' :: ':' :: (d ++ post)).drop 4 = d ++ post := rfl
      have htake : (d ++ post).take 8 = d := by
        have h8 := List.take_left d post
        rw [hlen] at h8
        exact h8
      rw [hdrop, htake, if_pos ⟨hlen, hhex⟩]
    simp only [List.nil_append, List.cons_append]
    unfold findHexMatch
    rw [hanch]
    rfl
  | cons p pre ih =>
    simp only [List.cons_append]
    unfold findHexMatch
    cases hh : hexAt (p :: ((pre ++ ['h', 'e', 'x', ':'] ++ d ++ post))) with
    | some d0 => rfl
    | none =>
      dsimp only
      simpa [List.append_assoc] using ih

/-- C8: whenever the cracker subprocess output contains no occurrence of
the pattern hex followed by a colon and eight hex digits, `lookupChecksum`
fails with the activation-bytes-not-found error, even though the
subprocess produced output and exited successfully. -/
theorem c8_lookup_not_found (output : List Char) (h : ¬ hasHexPattern output) :
    lookupChecksum output = .error .activationBytesNotFound := by
  unfold lookupChecksum
  cases hf : findHexMatch output with
  | none => rfl
  | some d => exact absurd (findHexMatch_sound hf) h

/-- C8 witness: the theorem evaluated on an output text with no match. -/
theorem c8_lookup_not_found_witness :
    ¬ hasHexPattern "no result found".data ∧
    lookupChecksum "no result found".data = .error .activationBytesNotFound := by
  have hn : findHexMatch "no result found".data = none := by decide
  have hnp : ¬ hasHexPattern "no result found".data := by
    rintro ⟨pre, d, post, hs, hlen, hhex⟩
    have hsome := findHexMatch_app pre d post hlen hhex
    rw [← hs, hn] at hsome
    exact Bool.noConfusion hsome
  exact ⟨hnp, c8_lookup_not_found _ hnp⟩

/-! ## Claim C9 -/

/-- Decoding the two-character rendering of a byte below 256 recovers the
byte, for all 256 byte values. -/
theorem toHex_decode : ∀ d : Nat, d < 256 → decodeHexByte (toHex d).data = some d := by decide

/-- Peeling one encoded byte off the front of a hex decoding. -/
theorem hexPairs_toHex (d : Nat) (hd : d < 256) (rest : List Char) :
    hexPairsToBytes ((toHex d).data ++ rest) = d :: hexPairsToBytes rest := by
  have h := toHex_decode d hd
  rcases hdata : (toHex d).data with _ | ⟨a, _ | ⟨b, _ | ⟨e, t⟩⟩⟩
  · rw [hdata] at h
    simp [decodeHexByte] at h
  · rw [hdata] at h
    simp [decodeHexByte] at h
  · rw [hdata] at h
    simp only [decodeHexByte, Option.some.injEq] at h
    simp only [List.cons_append, List.nil_append]
    rw [hexPairsToBytes, h]
  · rw [hdata] at h
    simp [decodeHexByte] at h

/-- C9: for every byte array of length at least 4 with all elements below
256, hex-encoding the first four bytes with `bytesToHex` and decoding the
eight hex characters recovers those four bytes; encoding them with
`extractBytes` (which reverses the four bytes first) and decoding, then
undoing the reversal, also recovers them. -/
theorem c9_hex_roundtrip (bs : List Nat) (hlen : 4 ≤ bs.length)
    (hbytes : ∀ x ∈ bs, x < 256) :
    hexPairsToBytes (bytesToHex (bs.take 4)).data = bs.take 4 ∧
    (hexPairsToBytes (extractBytes bs).data).reverse = bs.take 4 := by
  rcases bs with _ | ⟨b0, _ | ⟨b1, _ | ⟨b2, _ | ⟨b3, rest⟩⟩⟩⟩
  · simp only [List.length_nil] at hlen; omega
  · simp only [List.length_cons, List.length_nil] at hlen; omega
  · simp only [List.length_cons, List.length_nil] at hlen; omega
  · simp only [List.length_cons, List.length_nil] at hlen; omega
  · have h0 : b0 < 256 := hbytes b0 (by simp)
    have h1 : b1 < 256 := hbytes b1 (by simp)
    have h2 : b2 < 256 := hbytes b2 (by simp)
    have h3 : b3 < 256 := hbytes b3 (by simp)
    constructor
    · show hexPairsToBytes (bytesToHex [b0, b1, b2, b3]).data = [b0, b1, b2, b3]
      have hdata : (bytesToHex [b0, b1, b2, b3]).data =
          (toHex b0).data ++ ((toHex b1).data ++ ((toHex b2).data ++ ((toHex b3).data ++ []))) :=
        rfl
      rw [hdata, hexPairs_toHex b0 h0, hexPairs_toHex b1 h1, hexPairs_toHex b2 h2,
        hexPairs_toHex b3 h3]
      rfl
    · show (hexPairsToBytes (extractBytes (b0 :: b1 :: b2 :: b3 :: rest)).data).reverse =
        [b0, b1, b2, b3]
      have hext : extractBytes (b0 :: b1 :: b2 :: b3 :: rest) = bytesToHex [b3, b2, b1, b0] :=
        rfl
      have hdata : (bytesToHex [b3, b2, b1, b0]).data =
          (toHex b3).data ++ ((toHex b2).data ++ ((toHex b1).data ++ ((toHex b0).data ++ []))) :=
        rfl
      rw [hext, hdata, hexPairs_toHex b3 h3, hexPairs_toHex b2 h2, hexPairs_toHex b1 h1,
        hexPairs_toHex b0 h0]
      rfl

/-- C9 witness: the theorem evaluated on a concrete five-byte array. -/
theorem c9_hex_roundtrip_witness :
    4 ≤ ([26, 43, 0, 218, 99] : List Nat).length ∧
    (∀ x ∈ ([26, 43, 0, 218, 99] : List Nat), x < 256) ∧
    (hexPairsToBytes (bytesToHex (([26, 43, 0, 218, 99] : List Nat).take 4)).data =
        ([26, 43, 0, 218, 99] : List Nat).take 4 ∧
      (hexPairsToBytes (extractBytes ([26, 43, 0, 218, 99] : List Nat)).data).reverse =
        ([26, 43, 0, 218, 99] : List Nat).take 4) :=
  ⟨by decide, by decide, c9_hex_roundtrip [26, 43, 0, 218, 99] (by decide) (by decide)⟩
